import Mathlib

/-!
Verification of the resource-resolution and command-construction pipeline of
the gadopt_hpc_helper package, against a shallow embedding of its Python
source.  Conventions used throughout:

* Python float division followed by math.ceil / math.floor is embedded as
  exact rational division with Int.ceil / Int.floor.  All operands in the
  source are machine integers (process counts, core counts) or the
  per-queue memory figure, which we model as an exact rational.
* Python truthiness tests on strings ("if queue:") become equality tests
  against the empty string; on optional values they become a match.
* Calls that log an error and exit(1) are embedded as an Except error
  value carrying exactly the data the source reports.
-/

/-- Ceiling division on naturals: the least k with a <= k * b (for b > 0).
Used as the integer-arithmetic counterpart of math.ceil(a / b). -/
def ceilDivN (a b : Nat) : Nat := (a + b - 1) / b

lemma le_ceilDivN_mul (a b : ℕ) (hb : 0 < b) : a ≤ ceilDivN a b * b := by
  have hmod := Nat.div_add_mod (a + b - 1) b
  have hlt : (a + b - 1) % b < b := Nat.mod_lt _ hb
  unfold ceilDivN
  zify [show 1 ≤ a + b by omega] at hmod hlt ⊢
  linarith

lemma ceilDivN_mul_lt (a b : ℕ) (hb : 0 < b) : ceilDivN a b * b < a + b := by
  have hmod := Nat.div_add_mod (a + b - 1) b
  have hlt : (a + b - 1) % b < b := Nat.mod_lt _ hb
  have hbz : (b : ℤ) ≠ 0 := by exact_mod_cast hb.ne'
  have hnn : (0 : ℤ) ≤ ((a : ℤ) + (b : ℤ) - 1) % (b : ℤ) := Int.emod_nonneg _ hbz
  unfold ceilDivN
  zify [show 1 ≤ a + b by omega] at hmod hlt ⊢
  linarith

/-- math.ceil of an exact nonnegative quotient agrees with ceilDivN. -/
lemma ceil_cast_div (a b : ℕ) (hb : 0 < b) : ⌈(a : ℚ) / (b : ℚ)⌉ = (ceilDivN a b : ℤ) := by
  have hbq : (0 : ℚ) < (b : ℚ) := by exact_mod_cast hb
  have h1 : (a : ℚ) ≤ (ceilDivN a b : ℚ) * (b : ℚ) := by exact_mod_cast le_ceilDivN_mul a b hb
  have h2 : (ceilDivN a b : ℚ) * (b : ℚ) < (a : ℚ) + (b : ℚ) := by
    exact_mod_cast ceilDivN_mul_lt a b hb
  rw [Int.ceil_eq_iff]
  constructor
  · push_cast
    rw [lt_div_iff₀ hbq]
    linarith
  · rw [div_le_iff₀ hbq]
    push_cast
    linarith

lemma ceilDivN_pos (a b : ℕ) (ha : 0 < a) (hb : 0 < b) : 0 < ceilDivN a b := by
  have h := le_ceilDivN_mul a b hb
  rcases Nat.eq_zero_or_pos (ceilDivN a b) with h0 | h0
  · rw [h0] at h
    simp at h
    omega
  · exact h0

/-- Embeds MpiexecExecutor.get (src/gadopt_hpc_helper/executors/mpiexec.py).
The executor state set by set_job_size_specific_flags is passed as explicit
arguments.  The f-string of the source is reproduced literally; math.ceil of
the float quotients is embedded as Int.ceil of the exact rational quotients,
and the resulting nonnegative int is rendered through toNat. -/
def mpiexecGet (cmd : String) (nprocs cores_per_node numa_per_node : ℕ) : String :=
  let nodes : ℤ := ⌈(nprocs : ℚ) / (cores_per_node : ℚ)⌉
  if nprocs = 1 then ""
  else if nodes = 1 then cmd
  else if nprocs % cores_per_node = 0 then cmd
  else
    cmd ++ " -np " ++ toString nprocs ++ " --map-by ppr:"
      ++ toString (⌈(nprocs : ℚ) / ((nodes : ℤ) : ℚ) / (numa_per_node : ℚ)⌉.toNat)
      ++ ":numa --rank-by core"

/-- C1: the mpiexec launch-string derivation returns the empty string for a
single-process job; returns the bare launch command when the job fits on a
single node (ceil(nprocs/cores_per_node) = 1) or when cores_per_node evenly
divides nprocs; and otherwise returns the command extended with an explicit
per-NUMA-zone rank count equal to
ceilDivN nprocs (ceilDivN nprocs cores_per_node * numa_per_node), i.e.
ceil(nprocs / ceil(nprocs/cores_per_node) / numa_per_node), binding by core. -/
theorem mpiexec_launch_string_spec (cmd : String) (n cpn npn : ℕ)
    (hn : 1 ≤ n) (hc : 1 ≤ cpn) (hnp : 1 ≤ npn) :
    (n = 1 → mpiexecGet cmd n cpn npn = "") ∧
    (n ≠ 1 → ceilDivN n cpn = 1 → mpiexecGet cmd n cpn npn = cmd) ∧
    (n ≠ 1 → n % cpn = 0 → mpiexecGet cmd n cpn npn = cmd) ∧
    (n ≠ 1 → ceilDivN n cpn ≠ 1 → n % cpn ≠ 0 →
      mpiexecGet cmd n cpn npn =
        cmd ++ " -np " ++ toString n ++ " --map-by ppr:"
          ++ toString (ceilDivN n (ceilDivN n cpn * npn)) ++ ":numa --rank-by core") := by
  have hcd := ceil_cast_div n cpn hc
  have hpos : 0 < ceilDivN n cpn := ceilDivN_pos n cpn hn hc
  refine ⟨?_, ?_, ?_, ?_⟩
  · intro h1
    simp [mpiexecGet, h1]
  · intro h1 hone
    simp [mpiexecGet, h1, hcd, hone]
  · intro h1 hdvd
    unfold mpiexecGet
    simp only [if_neg h1]
    by_cases hone : ceilDivN n cpn = 1
    · simp [hcd, hone]
    · have : ⌈(n : ℚ) / (cpn : ℚ)⌉ ≠ 1 := by
        rw [hcd]
        exact_mod_cast hone
      simp [this, hdvd]
  · intro h1 hone hdvd
    unfold mpiexecGet
    have hne : ⌈(n : ℚ) / (cpn : ℚ)⌉ ≠ 1 := by
      rw [hcd]
      exact_mod_cast hone
    simp only [if_neg h1, if_neg hne, if_neg hdvd]
    have hppr : ⌈(n : ℚ) / ((⌈(n : ℚ) / (cpn : ℚ)⌉ : ℤ) : ℚ) / (npn : ℚ)⌉
        = (ceilDivN n (ceilDivN n cpn * npn) : ℤ) := by
      rw [hcd, Int.cast_natCast, div_div, ← Nat.cast_mul,
        ceil_cast_div n (ceilDivN n cpn * npn) (Nat.mul_pos hpos hnp)]
    rw [hppr, Int.toNat_natCast]

/-- Witness for C1: a 3-process job on 2-core, 2-NUMA nodes gets an explicit
one-rank-per-NUMA-zone binding. -/
theorem mpiexec_launch_string_spec_witness :
    mpiexecGet "mpiexec" 3 2 2 = "mpiexec -np 3 --map-by ppr:1:numa --rank-by core" := by
  have h := (mpiexec_launch_string_spec "mpiexec" 3 2 2 (by decide) (by decide) (by decide)).2.2.2
    (by decide) (by decide) (by decide)
  rw [h]
  decide

/-- Embeds the memory-resolution branch of HPCHelperConfig.__init__
(src/gadopt_hpc_helper/config.py lines 182-193).  The sentinel mem = -1
marks an absent override; memory_per_node (a Python float such as 230.0)
is modelled as an exact rational. -/
def resolveMem (nprocs ppn cores_per_node : ℕ) (memory_per_node : ℚ) (mem : ℤ) : ℤ :=
  if mem = -1 then
    let nnodes : ℤ := ⌈(nprocs : ℚ) / (ppn : ℚ)⌉
    if nnodes = 1 then
      ⌊(nprocs : ℚ) / (cores_per_node : ℚ) * memory_per_node⌋
    else
      ⌊((nnodes : ℤ) : ℚ) * memory_per_node⌋
  else mem

/-- C2: with no explicit memory override (sentinel -1) and
nodes = ceil(nprocs/ppn), a single-node job resolves to
floor(nprocs / cores_per_node * memory_per_node) and a multi-node job to
floor(nodes * memory_per_node); an explicit override is returned as given. -/
theorem resolveMem_spec (n ppn cpn : ℕ) (mpn : ℚ) (hp : 1 ≤ ppn) :
    (ceilDivN n ppn = 1 →
      resolveMem n ppn cpn mpn (-1) = ⌊(n : ℚ) / (cpn : ℚ) * mpn⌋) ∧
    (1 < ceilDivN n ppn →
      resolveMem n ppn cpn mpn (-1) = ⌊((ceilDivN n ppn : ℕ) : ℚ) * mpn⌋) ∧
    (∀ m : ℤ, m ≠ -1 → resolveMem n ppn cpn mpn m = m) := by
  have hcd := ceil_cast_div n ppn hp
  refine ⟨?_, ?_, ?_⟩
  · intro hone
    simp [resolveMem, hcd, hone]
  · intro hgt
    have hne : ⌈(n : ℚ) / (ppn : ℚ)⌉ ≠ 1 := by
      rw [hcd]
      exact_mod_cast hgt.ne'
    simp only [resolveMem, if_true]
    rw [if_neg hne, hcd]
    norm_cast
  · intro m hm
    simp [resolveMem, hm]

/-- Witness for C2: the end-to-end scenario of the spec, nprocs = 16 on a
queue with ppn = 8 and 230.0 GB per node, resolves to floor(2 * 230) = 460,
and an explicit override 100 is used verbatim. -/
theorem resolveMem_spec_witness :
    resolveMem 16 8 128 230 (-1) = 460 ∧ resolveMem 16 8 128 230 100 = 100 := by
  have h := resolveMem_spec 16 8 128 230 (by decide)
  constructor
  · have h2 := h.2.1 (by decide)
    rw [h2, show ceilDivN 16 8 = 2 from by decide]
    norm_num
  · exact h.2.2 100 (by decide)

/-- Embeds the rounded_up_cores derivation of HPCHelperConfig.__init__
(src/gadopt_hpc_helper/config.py lines 214-217). -/
def rounded_up_cores (nprocs ppn : ℕ) : ℕ :=
  if nprocs < ppn then nprocs
  else (⌈(nprocs : ℚ) / (ppn : ℚ)⌉.toNat) * ppn

/-- C3: the rounded-up core count equals nprocs when nprocs < ppn, and
otherwise equals ceil(nprocs/ppn) * ppn, which is the smallest multiple of
ppn that is greater than or equal to nprocs. -/
theorem rounded_up_cores_spec (n ppn : ℕ) (hn : 1 ≤ n) (hp : 1 ≤ ppn) :
    (n < ppn → rounded_up_cores n ppn = n) ∧
    (ppn ≤ n →
      rounded_up_cores n ppn = ceilDivN n ppn * ppn ∧
      ppn ∣ rounded_up_cores n ppn ∧
      n ≤ rounded_up_cores n ppn ∧
      ∀ m : ℕ, ppn ∣ m → n ≤ m → rounded_up_cores n ppn ≤ m) := by
  constructor
  · intro hlt
    simp [rounded_up_cores, hlt]
  · intro hge
    have hnotlt : ¬ n < ppn := not_lt.mpr hge
    have hval : rounded_up_cores n ppn = ceilDivN n ppn * ppn := by
      simp [rounded_up_cores, hnotlt, ceil_cast_div n ppn hp, Int.toNat_natCast]
    refine ⟨hval, ?_, ?_, ?_⟩
    · rw [hval]
      exact Dvd.intro_left _ rfl
    · rw [hval]
      exact le_ceilDivN_mul n ppn hp
    · intro m hdvd hle
      rcases hdvd with ⟨k, hk⟩
      rw [hval]
      have hqk : ceilDivN n ppn ≤ k := by
        have hlt2 : ceilDivN n ppn * ppn < k * ppn + ppn := by
          calc ceilDivN n ppn * ppn < n + ppn := ceilDivN_mul_lt n ppn hp
            _ ≤ ppn * k + ppn := by omega
            _ = k * ppn + ppn := by ring
        by_contra hc
        push_neg at hc
        have : k * ppn + ppn ≤ ceilDivN n ppn * ppn := by
          have : (k + 1) * ppn ≤ ceilDivN n ppn * ppn :=
            Nat.mul_le_mul_right _ hc
          linarith [this]
        omega
      calc ceilDivN n ppn * ppn ≤ k * ppn := Nat.mul_le_mul_right _ hqk
        _ = ppn * k := by ring
        _ = m := hk.symm

/-- Witness for C3: 16 processes at 8 per node round up to 16 cores
(the smallest multiple of 8 at or above 16), and 3 processes at 8 per node
stay at 3 cores. -/
theorem rounded_up_cores_spec_witness :
    rounded_up_cores 16 8 = 16 ∧ rounded_up_cores 3 8 = 3 := by
  constructor
  · have h := ((rounded_up_cores_spec 16 8 (by decide) (by decide)).2 (by decide)).1
    rw [h]
    decide
  · exact (rounded_up_cores_spec 3 8 (by decide) (by decide)).1 (by decide)

/-- Model of datetime.timedelta restricted to non-negative durations, with
the normalised representation Python maintains: days plus in-day seconds
(0 <= seconds < 86400; sub-second precision is not used by this program). -/
structure Timedelta where
  days : ℕ
  seconds : ℕ
deriving DecidableEq

/-- Zero-padding to width two, embedding the Python format spec 02 applied
to a non-negative integer. -/
def pad2 (n : ℕ) : String :=
  if (toString n).length < 2 then "0" ++ toString n else toString n

/-- Embeds h_m_s_formatter (src/gadopt_hpc_helper/schedulers/scheduler_base.py
lines 8-12): hours = t.seconds // 3600 + t.days * 24, minutes =
(t.seconds // 60) % 60, seconds = t.seconds % 60, each padded to width 2. -/
def h_m_s_formatter (t : Timedelta) : String :=
  pad2 (t.seconds / 3600 + t.days * 24) ++ ":" ++ pad2 (t.seconds / 60 % 60)
    ++ ":" ++ pad2 (t.seconds % 60)

/-- C10: the formatted string has hours field 24 * days + seconds div 3600,
minutes field (seconds div 60) mod 60 and seconds field seconds mod 60, each
zero-padded to at least two digits, and those three fields recombine to the
exact total seconds of the duration, so the output represents the duration
truncated to whole seconds. -/
theorem h_m_s_formatter_spec (t : Timedelta) :
    h_m_s_formatter t =
      pad2 (24 * t.days + t.seconds / 3600) ++ ":" ++ pad2 (t.seconds / 60 % 60)
        ++ ":" ++ pad2 (t.seconds % 60) ∧
    (24 * t.days + t.seconds / 3600) * 3600 + (t.seconds / 60 % 60) * 60
      + t.seconds % 60 = 86400 * t.days + t.seconds ∧
    (∀ m : ℕ, m < 10 → pad2 m = "0" ++ toString m) := by
  refine ⟨?_, ?_, ?_⟩
  · unfold h_m_s_formatter
    rw [Nat.add_comm (t.seconds / 3600) (t.days * 24), Nat.mul_comm t.days 24]
  · have h1 := Nat.div_add_mod t.seconds 60
    have h2 := Nat.div_add_mod (t.seconds / 60) 60
    have h3 : t.seconds / 60 / 60 = t.seconds / 3600 := by
      rw [Nat.div_div_eq_div_mul]
    omega
  · intro m hm
    interval_cases m <;> decide

/-- Witness for C10: one day plus 3723 seconds formats as 25:02:03, and a
single-digit field is zero-padded. -/
theorem h_m_s_formatter_spec_witness :
    h_m_s_formatter ⟨1, 3723⟩ = "25:02:03" ∧ pad2 5 = "05" := by
  have h := h_m_s_formatter_spec ⟨1, 3723⟩
  constructor
  · rw [h.1]
    decide
  · rw [h.2.2 5 (by decide)]
    decide

/-- Parsed form of a format template: Python str.format_map first splits the
template into literal runs and brace-enclosed replacement fields; the
templates of this repository use only plain named fields (no conversion or
format spec), so a template is a list of literal and placeholder tokens. -/
inductive Tok where
  | lit : String → Tok
  | ph : String → Tok
deriving DecidableEq

/-- Embeds PreserveFormatDict.__missing__
(src/gadopt_hpc_helper/config.py lines 21-32): a key that is not present in
the dictionary produces the literal placeholder text back. -/
def missingFmt (k : String) : String := "\x7b" ++ k ++ "\x7d"

/-- The text a token stands for in the unrendered template. -/
def unparseTok : Tok → String
  | Tok.lit s => s
  | Tok.ph k => missingFmt k

/-- The unrendered template text. -/
def unparse : List Tok → String
  | [] => ""
  | t :: r => unparseTok t ++ unparse r

/-- Embeds str.format_map over a PreserveFormatDict, one token at a time:
literal text passes through, a placeholder is replaced by its value when
the key is present and by missingFmt otherwise; no lookup can fail. -/
def renderTok (d : List (String × String)) : Tok → String
  | Tok.lit s => s
  | Tok.ph k => (List.lookup k d).getD (missingFmt k)

/-- Full template rendering over the parsed token list. -/
def render : List Tok → List (String × String) → String
  | [], _ => ""
  | t :: r, d => renderTok d t ++ render r d

/-- The placeholder keys of a template. -/
def phKeys : List Tok → List String
  | [] => []
  | Tok.lit _ :: r => phKeys r
  | Tok.ph k :: r => k :: phKeys r

/-- C4: rendering is total; a placeholder whose key is absent from the
substitution dictionary is reproduced verbatim, so a template none of whose
placeholder keys are present round-trips to itself unchanged, and a
placeholder whose key is present is replaced by its value. -/
theorem render_preserves_unknown (ts : List Tok) (d : List (String × String)) :
    ((∀ k ∈ phKeys ts, List.lookup k d = none) → render ts d = unparse ts) ∧
    (∀ pre post : List Tok, ∀ k v : String, List.lookup k d = some v →
      render (pre ++ Tok.ph k :: post) d = render pre d ++ v ++ render post d) := by
  constructor
  · intro habs
    induction ts with
    | nil => rfl
    | cons t rest ih =>
        have hrest : ∀ k ∈ phKeys rest, List.lookup k d = none := by
          intro k hk
          apply habs k
          cases t <;> simp [phKeys, hk]
        have hhd : renderTok d t = unparseTok t := by
          cases t with
          | lit s => rfl
          | ph k =>
              have hk : List.lookup k d = none := habs k (by simp [phKeys])
              simp [renderTok, unparseTok, hk]
        simp only [render, unparse, hhd, ih hrest]
  · intro pre post k v hkv
    induction pre with
    | nil =>
        simp only [List.nil_append, render, renderTok, hkv, Option.getD_some]
        simp [String.append_assoc]
    | cons t rest ih =>
        simp only [List.cons_append, render, List.append_eq, ih, String.append_assoc]

/-- Witness for C4: a template consisting of the single unknown placeholder
key unrelated round-trips verbatim, and a known key jobname is substituted. -/
theorem render_preserves_unknown_witness :
    render [Tok.ph "unrelated"] [("jobname", "myjob")] = "\x7bunrelated\x7d" ∧
    render [Tok.lit "-N ", Tok.ph "jobname"] [("jobname", "myjob")] = "-N myjob" := by
  constructor
  · have h := (render_preserves_unknown [Tok.ph "unrelated"] [("jobname", "myjob")]).1
      (by decide)
    exact h.trans (by decide)
  · have h := (render_preserves_unknown [Tok.lit "-N ", Tok.ph "jobname"]
      [("jobname", "myjob")]).2 [Tok.lit "-N "] [] "jobname" "myjob" (by decide)
    exact h.trans (by decide)

/-- The data reported when a required environment variable is missing
(config.py lines 114-124: the offending key from the KeyError and the full
required list are logged before exit(1)). -/
structure EnvError where
  missing : String
  required : List String
deriving DecidableEq

/-- Lookup in the calling process environment, modelled as an association
list. -/
def lookupEnv (environ : List (String × String)) (k : String) : Option String :=
  List.lookup k environ

/-- The union of the required_env set with the project-variable name
(config.py line 114).  Python iterates a set in an unspecified order; we fix
the order with the project variable appended last when new. -/
def requiredEnvList (required_env : List String) (project_var : String) : List String :=
  if project_var ∈ required_env then required_env else required_env ++ [project_var]

/-- Builds the KEY=VALUE parts of the comma-joined environment string,
stopping with an error at the first required key absent from the
environment, as the list comprehension in config.py line 116 does via
KeyError. -/
def requiredParts (environ : List (String × String)) (full : List String) :
    List String → Except EnvError (List String)
  | [] => Except.ok []
  | k :: rest =>
      match lookupEnv environ k with
      | none => Except.error ⟨k, full⟩
      | some v =>
          match requiredParts environ full rest with
          | Except.error e => Except.error e
          | Except.ok ps => Except.ok ((k ++ "=" ++ v) :: ps)


/-- Embeds the environment resolution of HPCHelperConfig.__init__
(config.py lines 114-130): required variables are required_env plus the
project variable; all must be present or resolution aborts with the missing
key and the full required list; on success the comma-joined KEY=VALUE string
is produced, with non-empty extra environment appended after a comma (the
string form of extra_env; the dict form joins its own pairs the same way). -/
def resolveEnv (environ : List (String × String)) (required_env : List String)
    (project_var : String) (extra_env : String) : Except EnvError String :=
  match requiredParts environ (requiredEnvList required_env project_var)
      (requiredEnvList required_env project_var) with
  | Except.error e => Except.error e
  | Except.ok parts =>
      Except.ok (if extra_env ≠ "" then
        String.intercalate "," parts ++ "," ++ extra_env
      else String.intercalate "," parts)

lemma requiredParts_ok (environ : List (String × String)) (full : List String)
    (l : List String) (h : ∀ k ∈ l, lookupEnv environ k ≠ none) :
    requiredParts environ full l =
      Except.ok (l.map fun k => k ++ "=" ++ (lookupEnv environ k).getD "") := by
  induction l with
  | nil => rfl
  | cons k rest ih =>
      have hk : lookupEnv environ k ≠ none := h k (by simp)
      rcases Option.ne_none_iff_exists.mp hk with ⟨v, hv⟩
      have hrest : ∀ x ∈ rest, lookupEnv environ x ≠ none := by
        intro x hx
        exact h x (by simp [hx])
      simp [requiredParts, ← hv, ih hrest]

lemma requiredParts_error (environ : List (String × String)) (full : List String)
    (l : List String) (e : EnvError)
    (h : requiredParts environ full l = Except.error e) :
    e.missing ∈ l ∧ lookupEnv environ e.missing = none ∧ e.required = full := by
  induction l with
  | nil => simp [requiredParts] at h
  | cons k rest ih =>
      by_cases hk : lookupEnv environ k = none
      · simp only [requiredParts, hk, Except.error.injEq] at h
        rw [← h]
        exact ⟨by simp, hk, rfl⟩
      · rcases Option.ne_none_iff_exists.mp hk with ⟨v, hv⟩
        simp only [requiredParts, ← hv] at h
        rcases hrec : requiredParts environ full rest with e2 | ps
        · rw [hrec] at h
          simp only [Except.error.injEq] at h
          rcases ih (by rw [hrec, h]) with ⟨h1, h2, h3⟩
          exact ⟨by simp [h1], h2, h3⟩
        · rw [hrec] at h
          simp at h

lemma requiredParts_some_missing (environ : List (String × String))
    (full : List String) (l : List String) (h : ∃ k ∈ l, lookupEnv environ k = none) :
    ∃ e, requiredParts environ full l = Except.error e := by
  induction l with
  | nil => simp at h
  | cons k rest ih =>
      by_cases hk : lookupEnv environ k = none
      · exact ⟨⟨k, full⟩, by simp [requiredParts, hk]⟩
      · rcases Option.ne_none_iff_exists.mp hk with ⟨v, hv⟩
        rcases h with ⟨x, hx, hxn⟩
        rcases List.mem_cons.mp hx with rfl | hxr
        · exact absurd hxn hk
        · rcases ih ⟨x, hxr, hxn⟩ with ⟨e, he⟩
          exact ⟨e, by simp [requiredParts, ← hv, he]⟩

/-- C6: resolution computes the required set as required_env plus the
project variable; when every required key is present it succeeds with the
comma-joined KEY=VALUE string (extra environment appended after a comma);
when some required key is absent it fails, and the reported error names a
required key that is genuinely absent and carries the full required list. -/
theorem resolveEnv_spec (environ : List (String × String))
    (required_env : List String) (project_var extra_env : String) :
    ((∀ k ∈ requiredEnvList required_env project_var, lookupEnv environ k ≠ none) →
      resolveEnv environ required_env project_var extra_env =
        Except.ok (if extra_env ≠ "" then
          String.intercalate ","
            ((requiredEnvList required_env project_var).map
              fun k => k ++ "=" ++ (lookupEnv environ k).getD "") ++ "," ++ extra_env
        else String.intercalate ","
          ((requiredEnvList required_env project_var).map
            fun k => k ++ "=" ++ (lookupEnv environ k).getD ""))) ∧
    ((∃ k ∈ requiredEnvList required_env project_var, lookupEnv environ k = none) →
      ∃ e, resolveEnv environ required_env project_var extra_env = Except.error e) ∧
    (∀ e, resolveEnv environ required_env project_var extra_env = Except.error e →
      e.missing ∈ requiredEnvList required_env project_var ∧
      lookupEnv environ e.missing = none ∧
      e.required = requiredEnvList required_env project_var) := by
  refine ⟨?_, ?_, ?_⟩
  · intro h
    unfold resolveEnv
    rw [requiredParts_ok environ _ _ h]
  · intro h
    rcases requiredParts_some_missing environ
      (requiredEnvList required_env project_var) _ h with ⟨e, he⟩
    refine ⟨e, ?_⟩
    unfold resolveEnv
    rw [he]
  · intro e he
    unfold resolveEnv at he
    rcases hrec : requiredParts environ (requiredEnvList required_env project_var)
      (requiredEnvList required_env project_var) with e2 | ps
    · rw [hrec] at he
      simp only [Except.error.injEq] at he
      exact requiredParts_error environ _ _ e (by rw [hrec, he])
    · rw [hrec] at he
      simp at he

/-- Witness for C6: with MY_GADOPT and PROJECT set, resolution yields the
joined environment string with the extra pair appended; with PROJECT unset
it fails naming PROJECT and listing both required keys. -/
theorem resolveEnv_spec_witness :
    resolveEnv [("MY_GADOPT", "/g/adopt"), ("PROJECT", "fp50")]
      ["MY_GADOPT"] "PROJECT" "A=1" =
      Except.ok "MY_GADOPT=/g/adopt,PROJECT=fp50,A=1" ∧
    resolveEnv [("MY_GADOPT", "/g/adopt")] ["MY_GADOPT"] "PROJECT" "" =
      Except.error ⟨"PROJECT", ["MY_GADOPT", "PROJECT"]⟩ := by
  constructor
  · have h := (resolveEnv_spec [("MY_GADOPT", "/g/adopt"), ("PROJECT", "fp50")]
      ["MY_GADOPT"] "PROJECT" "A=1").1 (by decide)
    exact h.trans rfl
  · have h := (resolveEnv_spec [("MY_GADOPT", "/g/adopt")]
      ["MY_GADOPT"] "PROJECT" "").2.1 ⟨"PROJECT", by decide, by decide⟩
    rcases h with ⟨e, he⟩
    have h3 := (resolveEnv_spec [("MY_GADOPT", "/g/adopt")]
      ["MY_GADOPT"] "PROJECT" "").2.2 e he
    have hreq : requiredEnvList ["MY_GADOPT"] "PROJECT" = ["MY_GADOPT", "PROJECT"] := by
      decide
    rcases e with ⟨m, r⟩
    obtain ⟨h31, h32, h33⟩ := h3
    rw [hreq] at h31 h33
    simp only at h31 h32 h33
    have hm : m = "PROJECT" := by
      rcases List.mem_cons.mp h31 with h4 | h4
      · subst h4
        exact absurd h32 (by decide)
      · simpa using h4
    subst hm
    subst h33
    exact he

/-- The data reported when an unknown queue is requested (config.py lines
139-147: the bad name and the list of valid queue names are logged before
exit(1)). -/
structure QueueError where
  queue : String
  valid : List String
deriving DecidableEq

/-- Embeds the queue resolution of HPCHelperConfig.__init__ (config.py
lines 139-152).  The queues of a system form a mapping from queue name to
queue record; only the key set matters here, so queues is the list of queue
names.  An empty queue argument is the omitted (falsy) case. -/
def resolveQueue (queues : List String) (default_queue : String)
    (queue : String) : Except QueueError String :=
  if queue ≠ "" then
    if queue ∈ queues then Except.ok queue
    else Except.error ⟨queue, queues⟩
  else Except.ok default_queue

/-- C7: an explicit queue name not offered by the system fails with the bad
name and the full list of valid queue names; an explicit valid queue name is
used; an omitted queue argument selects the default queue of the system. -/
theorem resolveQueue_spec (queues : List String) (default_queue queue : String) :
    (queue ≠ "" → queue ∉ queues →
      resolveQueue queues default_queue queue = Except.error ⟨queue, queues⟩) ∧
    (queue ≠ "" → queue ∈ queues →
      resolveQueue queues default_queue queue = Except.ok queue) ∧
    (resolveQueue queues default_queue "" = Except.ok default_queue) := by
  refine ⟨?_, ?_, ?_⟩
  · intro hne hmem
    simp [resolveQueue, hne, hmem]
  · intro hne hmem
    simp [resolveQueue, hne, hmem]
  · simp [resolveQueue]

/-- Witness for C7: on the Setonix queue set, requesting the absent queue
debug fails listing work, long and highmem; requesting long succeeds; and
omitting the queue yields the default queue work. -/
theorem resolveQueue_spec_witness :
    resolveQueue ["work", "long", "highmem"] "work" "debug" =
      Except.error ⟨"debug", ["work", "long", "highmem"]⟩ ∧
    resolveQueue ["work", "long", "highmem"] "work" "long" = Except.ok "long" ∧
    resolveQueue ["work", "long", "highmem"] "work" "" = Except.ok "work" := by
  refine ⟨?_, ?_, ?_⟩
  · exact (resolveQueue_spec ["work", "long", "highmem"] "work" "debug").1
      (by decide) (by decide)
  · exact (resolveQueue_spec ["work", "long", "highmem"] "work" "long").2.1
      (by decide) (by decide)
  · exact (resolveQueue_spec ["work", "long", "highmem"] "work" "").2.2

/-- The default walltime of four hours (config.py line 18,
timedelta(hours=4)). -/
def default_walltime : Timedelta := ⟨0, 14400⟩

/-- Embeds the walltime resolution of HPCHelperConfig.__init__ (config.py
lines 154-159).  The source tests Python truthiness of the optional
timedelta: None and the zero-length timedelta are both falsy, so both fall
back to the default. -/
def resolveWalltime (walltime : Option Timedelta) : Timedelta :=
  match walltime with
  | some t => if t = ⟨0, 0⟩ then default_walltime else t
  | none => default_walltime

/-- Embeds the processes-per-node resolution of HPCHelperConfig.__init__
(config.py lines 175-180): the sentinel -1 selects the queue default. -/
def resolvePpn (ppn : ℤ) (default_processes_per_node : ℕ) : ℤ :=
  if ppn = -1 then (default_processes_per_node : ℤ) else ppn

/-- Counterexample to C8: a caller-supplied zero-length walltime is falsy in
the truthiness test of the source, so it is silently replaced by the 4-hour
default instead of being used verbatim as the claim states. -/
theorem walltime_zero_not_verbatim :
    resolveWalltime (some ⟨0, 0⟩) = default_walltime ∧
    default_walltime ≠ (⟨0, 0⟩ : Timedelta) := by
  constructor
  · rfl
  · decide

/-- C8 (amended): for ppn and mem only the sentinel -1 selects the default
and any other value, including 0, is used verbatim; for walltime both None
and the zero-length duration select the 4-hour default, and any non-zero
duration is used verbatim. -/
theorem sentinel_resolution_spec (default_ppn : ℕ) (n ppn cpn : ℕ) (mpn : ℚ) :
    (∀ p : ℤ, p ≠ -1 → resolvePpn p default_ppn = p) ∧
    (resolvePpn (-1) default_ppn = (default_ppn : ℤ)) ∧
    (∀ m : ℤ, m ≠ -1 → resolveMem n ppn cpn mpn m = m) ∧
    (resolveWalltime none = default_walltime) ∧
    (resolveWalltime (some ⟨0, 0⟩) = default_walltime) ∧
    (∀ t : Timedelta, t ≠ ⟨0, 0⟩ → resolveWalltime (some t) = t) := by
  refine ⟨?_, ?_, ?_, ?_, ?_, ?_⟩
  · intro p hp
    simp [resolvePpn, hp]
  · simp [resolvePpn]
  · intro m hm
    simp [resolveMem, hm]
  · rfl
  · rfl
  · intro t ht
    simp [resolveWalltime, ht]

/-- Witness for C8 (amended): explicit zero ppn and zero mem are kept
verbatim, the sentinel -1 selects the queue default 48, and a one-second
walltime is kept verbatim. -/
theorem sentinel_resolution_spec_witness :
    resolvePpn 0 48 = 0 ∧ resolvePpn (-1) 48 = 48 ∧
    resolveMem 16 8 128 230 0 = 0 ∧ resolveWalltime (some ⟨0, 1⟩) = ⟨0, 1⟩ := by
  have h := sentinel_resolution_spec 48 16 8 128 230
  exact ⟨h.1 0 (by decide), h.2.1, h.2.2.1 0 (by decide),
    h.2.2.2.2.2 ⟨0, 1⟩ (by decide)⟩

/-- The per-scheduler flag specification table, embedding the fields used by
build_sub_cmd (src/gadopt_hpc_helper/subcmd.py lines 37-66):
the submission subcommand name, one spec string per flag category, and the
job_size_specific_flags function of (nprocs, ppn, cores_per_node,
numa_per_node). -/
structure Sched where
  subcmd : String
  var_spec : String
  block_spec : String
  name_spec : String
  time_spec : String
  procs_spec : String
  mem_spec : String
  stderr_spec : String
  stdout_spec : String
  acct_spec : String
  queue_spec : String
  local_storage_spec : String
  extras : String
  sizeFlags : ℕ → ℕ → ℕ → ℕ → String

/-- Splits a character list on spaces, dropping empty fields; the
accumulator holds the current field reversed. -/
def splitWsChars : List Char → List Char → List String
  | [], acc => if acc = [] then [] else [String.mk acc.reverse]
  | c :: rest, acc =>
      if c = ' ' then
        (if acc = [] then [] else [String.mk acc.reverse]) ++ splitWsChars rest []
      else splitWsChars rest (c :: acc)

/-- Embedding of shlex.split for the spec strings of this repository, which
contain no quoting: split on spaces, dropping empty fields (so an empty spec
contributes no argument). -/
def splitWs (s : String) : List String := splitWsChars s.data []

/-- Embeds build_sub_cmd (src/gadopt_hpc_helper/subcmd.py lines 37-66).
The HPCHelperConfig fields it reads are passed explicitly; fmt abstracts the
final element-wise format_map over the substitution dictionary (an
order-preserving map, modelled separately by render).  The source order is:
subcommand; variables when the environment string is non-empty; the block
flag; then, in cmdline opts style: name when explicitly requested, process
count, walltime, memory, local storage, the job-size-specific flags, the
static extras, queue, accounting, stdout and stderr when explicitly
requested. -/
def buildSubCmd (s : Sched) (fmt : String → String) (env jobname outfile errfile : String)
    (nprocs ppn cpn npn : ℕ) (opts_style : String) : List String :=
  (([s.subcmd]
    ++ (if env ≠ "" then splitWs s.var_spec else [])
    ++ [s.block_spec]
    ++ (if opts_style = "cmdline" then
          (if jobname ≠ "" then splitWs s.name_spec else [])
          ++ splitWs s.procs_spec
          ++ splitWs s.time_spec
          ++ splitWs s.mem_spec
          ++ splitWs s.local_storage_spec
          ++ splitWs (s.sizeFlags nprocs ppn cpn npn)
          ++ splitWs s.extras
          ++ splitWs s.queue_spec
          ++ splitWs s.acct_spec
          ++ (if outfile ≠ "" then splitWs s.stdout_spec else [])
          ++ (if errfile ≠ "" then splitWs s.stderr_spec else [])
        else [])).map fmt)

/-- The semantic flag categories of the command builder. -/
inductive FlagCat where
  | name | procs | time | mem | local_storage | size | extras | queue
  | acct | stdout | stderr
deriving DecidableEq

/-- The arguments one flag category contributes, with its gating: name,
stdout and stderr only when the corresponding value was explicitly
requested, every other category unconditionally. -/
def emitCat (s : Sched) (jobname outfile errfile : String)
    (nprocs ppn cpn npn : ℕ) : FlagCat → List String
  | FlagCat.name => if jobname ≠ "" then splitWs s.name_spec else []
  | FlagCat.procs => splitWs s.procs_spec
  | FlagCat.time => splitWs s.time_spec
  | FlagCat.mem => splitWs s.mem_spec
  | FlagCat.local_storage => splitWs s.local_storage_spec
  | FlagCat.size => splitWs (s.sizeFlags nprocs ppn cpn npn)
  | FlagCat.extras => splitWs s.extras
  | FlagCat.queue => splitWs s.queue_spec
  | FlagCat.acct => splitWs s.acct_spec
  | FlagCat.stdout => if outfile ≠ "" then splitWs s.stdout_spec else []
  | FlagCat.stderr => if errfile ≠ "" then splitWs s.stderr_spec else []

/-- A command builder driven by an explicit priority order for the flag
categories that follow the subcommand, the variables flag and the block
flag. -/
def buildFromOrder (order : List FlagCat) (s : Sched) (fmt : String → String)
    (env jobname outfile errfile : String) (nprocs ppn cpn npn : ℕ)
    (opts_style : String) : List String :=
  (([s.subcmd]
    ++ (if env ≠ "" then splitWs s.var_spec else [])
    ++ [s.block_spec]
    ++ (if opts_style = "cmdline" then
          (order.map (emitCat s jobname outfile errfile nprocs ppn cpn npn)).join
        else [])).map fmt)

/-- The category order the source actually emits. -/
def codeFlagOrder : List FlagCat :=
  [FlagCat.name, FlagCat.procs, FlagCat.time, FlagCat.mem,
    FlagCat.local_storage, FlagCat.size, FlagCat.extras, FlagCat.queue,
    FlagCat.acct, FlagCat.stdout, FlagCat.stderr]

/-- The category order asserted by the claim: local storage, accounting,
queue, then the size-dependent extras. -/
def claimedFlagOrder : List FlagCat :=
  [FlagCat.name, FlagCat.procs, FlagCat.time, FlagCat.mem,
    FlagCat.local_storage, FlagCat.acct, FlagCat.queue, FlagCat.size,
    FlagCat.extras, FlagCat.stdout, FlagCat.stderr]

/-- The Slurm scheduler table (src/gadopt_hpc_helper/schedulers/slurm.py):
spec strings as in the source, and job_size_specific_flags returning
--exclusive when the job uses at least half a node (procs >= ppn / 2 under
exact division). -/
def Slurm : Sched where
  subcmd := "sbatch"
  var_spec := "--export \x7bcomma_sep_vars\x7d"
  block_spec := "--wait"
  name_spec := "-J \x7bjobname\x7d"
  time_spec := "-t \x7bwalltime\x7d"
  procs_spec := "--ntasks=\x7bcores\x7d --nodes=\x7bnodes\x7d"
  mem_spec := ""
  stderr_spec := "-e \x7berrname\x7d"
  stdout_spec := "-o \x7boutname\x7d"
  acct_spec := "-A \x7bproject\x7d"
  queue_spec := "-p \x7bqueue\x7d"
  local_storage_spec := ""
  extras := ""
  sizeFlags := fun procs ppn _ _ => if ppn ≤ 2 * procs then "--exclusive" else ""

/-- Counterexample to C5: on the Slurm scheduler table with a 16-process,
8-per-node job (so the exclusive flag fires), the command the source builds
differs from the command the claimed priority order (accounting before
queue, size-dependent extras after queue) would build. -/
theorem build_sub_cmd_order_counterexample :
    buildSubCmd Slurm id "PAWSEY_PROJECT=p1" "" "" "" 16 8 128 8 "cmdline" ≠
      buildFromOrder claimedFlagOrder Slurm id "PAWSEY_PROJECT=p1" "" "" "" 16 8 128 8
        "cmdline" := by
  decide

/-- C5 (amended): the command starts with the submission subcommand and
emits categories in the fixed source order — variables (gated on a non-empty
environment string), block, then in cmdline opts style name, process count,
walltime, memory, local storage, size-dependent flags, static extras,
queue, accounting, stdout, stderr — with name, stdout and stderr emitted
only when explicitly requested. -/
theorem build_sub_cmd_priority_order (s : Sched) (fmt : String → String)
    (env jobname outfile errfile : String) (nprocs ppn cpn npn : ℕ)
    (opts_style : String) :
    buildSubCmd s fmt env jobname outfile errfile nprocs ppn cpn npn opts_style =
      buildFromOrder codeFlagOrder s fmt env jobname outfile errfile nprocs ppn cpn npn
        opts_style := by
  unfold buildSubCmd buildFromOrder codeFlagOrder
  simp [emitCat, List.join, List.append_assoc]

/-- Concrete evaluation of the source command builder on the Slurm table:
the size-dependent exclusive flag lands between local storage and queue,
and queue precedes accounting. -/
theorem build_sub_cmd_slurm_eval :
    buildSubCmd Slurm id "PAWSEY_PROJECT=p1" "" "" "" 16 8 128 8 "cmdline" =
      ["sbatch", "--export", "\x7bcomma_sep_vars\x7d", "--wait",
        "--ntasks=\x7bcores\x7d", "--nodes=\x7bnodes\x7d", "-t", "\x7bwalltime\x7d",
        "--exclusive", "-p", "\x7bqueue\x7d", "-A", "\x7bproject\x7d"] := by
  decide

/-- The job geometry written into an executor by
set_job_size_specific_flags (executors/executor_base.py lines 8-29). -/
structure Geometry where
  nprocs : ℕ
  ppn : ℕ
  cores_per_node : ℕ
  numa_per_node : ℕ
deriving DecidableEq

/-- The mutable state of a module-level executor descriptor: its launch
command and the geometry fields, absent until first set. -/
structure ExecutorState where
  cmd : String
  geometry : Option Geometry
deriving DecidableEq

/-- Embeds HPCExecutor.set_job_size_specific_flags
(executors/executor_base.py lines 8-29): writes the four geometry fields
onto the executor object. -/
def set_job_size_specific_flags (e : ExecutorState) (nprocs ppn cpn npn : ℕ) :
    ExecutorState :=
  { e with geometry := some ⟨nprocs, ppn, cpn, npn⟩ }

/-- The shared module-level descriptors a submission can touch: the System
record's static fields, the Scheduler descriptor's static fields, and the
Executor descriptor state. -/
structure SharedState where
  system_name : String
  system_default_queue : String
  scheduler_subcmd : String
  executor : ExecutorState
deriving DecidableEq

/-- Embeds the shared-state effect of one submission in gadopt_hpcrun_async
(src/gadopt_hpc_helper/__init__.py lines 136-164): config, command and
script are constructed fresh per call, and the single write to a shared
descriptor is the call system.scheduler.executor.set_job_size_specific_flags
on line 155. -/
def submitSharedEffect (s : SharedState) (nprocs ppn cpn npn : ℕ) : SharedState :=
  { s with executor := set_job_size_specific_flags s.executor nprocs ppn cpn npn }

/-- Counterexample to C9: a submission does not leave the Executor
descriptor unchanged — running a 16-process job on the Gadi mpiexec executor
writes the job geometry into the shared executor object. -/
theorem submission_mutates_executor :
    submitSharedEffect ⟨"Gadi", "normalsr", "qsub", ⟨"mpiexec", none⟩⟩ 16 8 48 4 ≠
      ⟨"Gadi", "normalsr", "qsub", ⟨"mpiexec", none⟩⟩ := by
  decide

/-- C9 (amended): a submission constructs its JobSpec, command and script
fresh and leaves the System record and Scheduler descriptor unchanged, but
it writes the job geometry of the current job into the shared Executor
descriptor, which is therefore mutable state shared between submissions. -/
theorem submission_shared_state_effect (s : SharedState) (nprocs ppn cpn npn : ℕ) :
    (submitSharedEffect s nprocs ppn cpn npn).system_name = s.system_name ∧
    (submitSharedEffect s nprocs ppn cpn npn).system_default_queue =
      s.system_default_queue ∧
    (submitSharedEffect s nprocs ppn cpn npn).scheduler_subcmd = s.scheduler_subcmd ∧
    (submitSharedEffect s nprocs ppn cpn npn).executor.cmd = s.executor.cmd ∧
    (submitSharedEffect s nprocs ppn cpn npn).executor.geometry =
      some ⟨nprocs, ppn, cpn, npn⟩ := by
  exact ⟨rfl, rfl, rfl, rfl, rfl⟩
